import Mathlib

/-!
Verification of the aqua-ai submission-processing pipeline.

The definitions below are a shallow embedding of the JavaScript source:

* `src/api/process.js` — the main handler: form parsing, key derivation,
  the image-transform chain, S3 uploads, and Notion metadata recording.
* `src/api/preview.js` — the preview handler's transform chain.
* `src/unnamed/part_001` — the schema-adaptive variant of the handler,
  whose Notion block looks up each property's live type before shaping
  its value (`getDbPropsMeta` / `buildSubPropsAdaptive` here).

External collaborators (formidable, sharp, the S3 and Notion clients) are
modelled as oracles: their outcomes are inputs to the embedded handler,
and the calls the handler issues to them are collected in a trace.
-/

namespace AquaAI

/-! ## Form values and `strField` (src/api/process.js lines 87-91) -/

/-- A loosely-typed multipart form value as formidable delivers it:
absent/null, a string, an array (whose elements may or may not be
strings), or some other JS value. -/
inductive FormVal where
  | missing
  | str (s : String)
  | arr (elems : List (Option String))
  | other
deriving DecidableEq, Repr

/-- `strField` from src/api/process.js: null → `""`; array → its first
element when that is a string, else `""`; string → itself; else `""`. -/
def strField : FormVal → String
  | .missing => ""
  | .str s => s
  | .arr elems =>
    match elems.head? with
    | some (some s) => s
    | _ => ""
  | .other => ""

/-! ## Base-name sanitization (src/api/process.js lines 92-100) -/

/-- Characters of the class `[A-Za-z0-9_-]`, i.e. JavaScript `[\w-]`. -/
def isWordDash (c : Char) : Bool :=
  ('a' ≤ c && c ≤ 'z') || ('A' ≤ c && c ≤ 'Z') || ('0' ≤ c && c ≤ '9') || c = '_' || c = '-'

/-- Path-separator characters, the class `[/\\]`. -/
def isSepChar (c : Char) : Bool := c = '/' || c = '\\'

/-- `s.split(/[/\\]/).pop()`: the suffix after the last path separator
(possibly empty when the string ends with a separator). -/
def lastSegment (s : String) : String :=
  ⟨(s.data.reverse.takeWhile (fun c => !isSepChar c)).reverse⟩

/-- `s.replace(/\.[^.]+$/, '')`: drop a final `.ext` where `ext` is a
nonempty run of non-dot characters; otherwise leave the string alone. -/
def dropLastExt (s : String) : String :=
  match s.data.reverse.findIdx? (fun c => c = '.') with
  | none => s
  | some k => if k = 0 then s else ⟨(s.data.reverse.drop (k + 1)).reverse⟩

/-- `s.replace(/[^\w\-]+/g, '_')`: each maximal run of characters outside
`[A-Za-z0-9_-]` becomes a single underscore.  The boolean records whether
we are inside such a run. -/
def collapseAux : Bool → List Char → List Char
  | _, [] => []
  | inRun, c :: rest =>
    if isWordDash c then c :: collapseAux false rest
    else if inRun then collapseAux true rest
    else '_' :: collapseAux true rest

/-- String-level wrapper for `collapseAux` starting outside a run. -/
def collapseNonWord (s : String) : String := ⟨collapseAux false s.data⟩

/-- `s.slice(0, n)` on a string (JavaScript `slice` with a nonnegative cap). -/
def sliceTo (n : Nat) (s : String) : String := ⟨s.data.take n⟩

/-- `sanitizeBase` from src/api/process.js lines 92-100.  The Unicode
NFKD normalization step (`String.prototype.normalize('NFKD')`) is taken
as a parameter `nfkd`; the theorems about `sanitizeBase` assume only the
Unicode-standard fact that NFKD fixes strings that are already plain
ASCII of the class `[A-Za-z0-9_-]`. -/
def sanitizeBase (nfkd : String → String) (name : FormVal) : String :=
  let s := strField name
  let s1 := if s = "" then "image" else s
  let seg := lastSegment s1
  let noExt := dropLastExt seg
  let norm := nfkd noExt
  let cleaned := collapseNonWord norm
  let sliced := sliceTo 64 cleaned
  if sliced = "" then "image" else sliced

/-- The output format the spec claims for sanitized base names:
nonempty, at most 64 characters, all in `[A-Za-z0-9_-]`. -/
def sanitizedOk (s : String) : Prop :=
  s ≠ "" ∧ s.data.length ≤ 64 ∧ ∀ c ∈ s.data, isWordDash c

/-! ## Storage-key derivation (src/api/process.js lines 168-171 and 193) -/

/-- One lowercase hex digit, as `Buffer.toString('hex')` produces. -/
def hexDigitChar (n : Nat) : Char :=
  if n < 10 then Char.ofNat ('0'.toNat + n) else Char.ofNat ('a'.toNat + (n - 10))

/-- Hex encoding of one byte: two lowercase hex digits. -/
def byteHex (b : Nat) : List Char := [hexDigitChar (b / 16), hexDigitChar (b % 16)]

/-- `crypto.randomBytes(k).toString('hex')`: the bytes hex-encoded in order. -/
def hexOfBytes (bs : List Nat) : String := ⟨(bs.map byteHex).flatten⟩

/-- The storage-key template shared by both uploads:
`{role}/{folder}/{epoch-ms}-{hex-suffix}/{base}{suffix}` where `role` is
`originals` or `submissions`, `folder` is the `yyyy/mm/dd` date, and
`suffix` is the original extension or `_out.jpg`. -/
def mkKey (role folder : String) (ts : Nat) (randHex : String) (base suffix : String) : String :=
  role ++ "/" ++ folder ++ "/" ++ toString ts ++ "-" ++ randHex ++ "/" ++ base ++ suffix

/-! ## The image-transform chain (src/api/process.js lines 182-191,
src/api/preview.js lines 27-36) -/

/-- `Math.round(p / q)` for nonnegative `p`, `q` (round half up). -/
def jsRoundDiv (p q : Nat) : Nat := (2 * p + q) / (2 * q)

/-- JavaScript `x || d` for an optional number, where `0` and absent are
both falsy. -/
def jsOrNat (o : Option Nat) (d : Nat) : Nat :=
  match o with
  | some n => if n = 0 then d else n
  | none => d

/-- One sharp operation, tagged with its numeric arguments (as exact
rationals).  Only the identity of the operations matters for the claims
proved here; the chain of operations applied to the input fully
determines the output bytes because sharp is deterministic. -/
inductive ImgOp where
  | rotate
  | withMeta
  | modulate (saturation : ℚ)
  | linear (a b : ℚ)
  | sharpen (sigma : ℚ)
  | resize (width : Nat)
  | compositeBar (w barH font : Nat) (top : ℤ)
  | jpegEncode (quality : Nat)
deriving DecidableEq, Repr

/-- `applyWatermarkBar` from src/api/process.js lines 101-113: a
semi-transparent SVG bar composited at the bottom edge, with
`barH = max(round(w*0.06), 40)`, `font = max(round(barH*0.5), 16)`,
defaults `w = 1200`, `h = 800` when metadata is missing. -/
def watermarkBar (metaW metaH : Option Nat) : ImgOp :=
  let w := jsOrNat metaW 1200
  let h := jsOrNat metaH 800
  let barH := max (jsRoundDiv (6 * w) 100) 40
  let font := max (jsRoundDiv barH 2) 16
  ImgOp.compositeBar w barH font ((h : ℤ) - (barH : ℤ))

/-- The transform chain of src/api/process.js lines 182-191: EXIF
rotation, metadata retention, then the effect transforms gated by
membership tests on the requested model list (fixed internal order:
color_restore, dehaze, stabilize, superres), the optional watermark, and
the final JPEG encode at quality 92.  `metaW`/`metaH` are the intrinsic
dimensions that `img.metadata()` reports (`none` when unavailable);
`Math.round(w * 1.5)` is exactly `(3 * w + 1) / 2` on naturals. -/
def applyChain (models : List String) (metaW metaH : Option Nat) (wm : Bool) : List ImgOp :=
  [ImgOp.rotate, ImgOp.withMeta]
  ++ (if "color_restore" ∈ models then
        [ImgOp.modulate (112 / 100), ImgOp.linear (106 / 100) (-4)] else [])
  ++ (if "dehaze" ∈ models then [ImgOp.sharpen (3 / 2)] else [])
  ++ (if "stabilize" ∈ models then [ImgOp.sharpen (3 / 5)] else [])
  ++ (if "superres" ∈ models then
        (match metaW with
         | some w => if w = 0 then [] else [ImgOp.resize ((3 * w + 1) / 2)]
         | none => [])
      else [])
  ++ (if wm then [watermarkBar metaW metaH] else [])
  ++ [ImgOp.jpegEncode 92]

/-- The preview chain of src/api/preview.js lines 27-36: EXIF rotation, a
max-width downscale, the three effect transforms (no superres, no
watermark), JPEG encode at quality 90. -/
def previewChain (models : List String) (metaW : Option Nat) (maxWidth : Nat) : List ImgOp :=
  [ImgOp.rotate]
  ++ (match metaW with
      | some w => if w ≠ 0 ∧ maxWidth < w then [ImgOp.resize maxWidth] else []
      | none => [])
  ++ (if "color_restore" ∈ models then
        [ImgOp.modulate (11 / 10), ImgOp.linear (21 / 20) (-5)] else [])
  ++ (if "dehaze" ∈ models then [ImgOp.sharpen (6 / 5)] else [])
  ++ (if "stabilize" ∈ models then [ImgOp.sharpen (1 / 2)] else [])
  ++ [ImgOp.jpegEncode 90]

/-- The fixed vocabulary of model identifiers that have an effect in
src/api/process.js. -/
def knownModels : List String := ["color_restore", "dehaze", "stabilize", "superres"]

/-! ### Width semantics of the chain (for C9) -/

/-- Whether an operation changes the image width: only `resize` does
(`modulate`, `linear`, `sharpen`, the watermark composite and the encode
are width-preserving in sharp). -/
def opSetsWidth : ImgOp → Option Nat
  | ImgOp.resize w => some w
  | _ => none

/-- Width after running a chain from initial width `w0`. -/
def chainWidth (w0 : Nat) (ops : List ImgOp) : Nat :=
  ops.foldl (fun w op => (opSetsWidth op).getD w) w0

/-- The effect transforms (color_restore's modulate/linear, the sharpen
passes of dehaze/stabilize). -/
def isEffectOp : ImgOp → Bool
  | ImgOp.modulate _ => true
  | ImgOp.linear _ _ => true
  | ImgOp.sharpen _ => true
  | _ => false

/-! ## Notion schema model -/

/-- An option of a select / multi_select / status property. -/
structure SelectOption where
  name : String
deriving DecidableEq, Repr

/-- One property of a Notion database schema: its declared type tag
(`"title"`, `"email"`, `"select"`, ...) and, for select-like types, its
option list (`prop[type].options`; empty for other types). -/
structure NotionProp where
  type : String
  options : List SelectOption
deriving DecidableEq, Repr

/-- The `db.properties` object returned by `notion.databases.retrieve`:
an association of property name to property. -/
abbrev Schema := List (String × NotionProp)

/-- Property lookup, `db.properties?.[propName]`. -/
def findProp (db : Schema) (name : String) : Option NotionProp :=
  (db.find? (fun p => p.1 = name)).map (fun p => p.2)

/-- A `notion.databases.update` payload extending one property's
option list. -/
structure UpdateCall where
  propName : String
  typeTag : String
  options : List SelectOption
deriving DecidableEq, Repr

/-- `ensureSelectOptions` from src/api/process.js lines 116-133, as the
pure decision of which schema update (if any) to issue against the
retrieved schema `db`: guards on empty inputs, skips a missing property
or one whose declared type differs from the expected `typeTag`, computes
the requested names missing from the existing options, and issues one
update appending them when any are missing. -/
def ensureSelectOptions (db : Schema) (propName : String) (names : List String)
    (typeTag : String) : Option UpdateCall :=
  if propName = "" ∨ names.isEmpty then none
  else
    match findProp db propName with
    | none => none
    | some prop =>
      if prop.type ≠ typeTag then none
      else
        if (names.filter
            (fun n => decide (n ≠ "" ∧ n ∉ prop.options.map SelectOption.name))).isEmpty
        then none
        else some ⟨propName, typeTag,
          prop.options ++ (names.filter
            (fun n => decide (n ≠ "" ∧ n ∉ prop.options.map SelectOption.name))).map
              (fun n => ⟨n⟩)⟩

/-- `ensureSelectOptionIfNeeded` from src/unnamed/part_001 lines 117-133:
single value, `select` type only (a `status`-typed property is left
untouched); appends the one missing option. -/
def ensureSelectOptionIfNeeded (db : Schema) (propName valueName : String) :
    Option UpdateCall :=
  if propName = "" ∨ valueName = "" then none
  else
    match findProp db propName with
    | none => none
    | some prop =>
      if prop.type = "select" then
        if (prop.options.map SelectOption.name).contains valueName then none
        else some ⟨propName, "select", prop.options ++ [⟨valueName⟩]⟩
      else none

/-! ## Property values and page-create payloads -/

/-- A property value as shaped in a `pages.create` payload. -/
inductive PropValue where
  | title (content : String)
  | emailVal (val : Option String)
  | multiSelect (names : List String)
  | select (name : String)
  | statusVal (name : String)
  | urlVal (u : String)
  | files (fileName externalUrl : String)
  | checkbox (b : Bool)
  | dateVal (start : String)
  | richText (content : String)
  | relation (ids : List String)
  | numberVal (n : Int)
deriving DecidableEq, Repr

/-- Follows the spec's words: whether a value is "shaped according to the
snapshot's declared kind for that property" — the wire shape matching
each declared property kind. -/
def shapeOfKind : String → PropValue → Bool
  | "title", .title _ => true
  | "email", .emailVal _ => true
  | "multi_select", .multiSelect _ => true
  | "select", .select _ => true
  | "status", .statusVal _ => true
  | "url", .urlVal _ => true
  | "files", .files _ _ => true
  | "checkbox", .checkbox _ => true
  | "date", .dateVal _ => true
  | "rich_text", .richText _ => true
  | _, _ => false

/-- The per-submission data the Notion blocks consume, as computed by
the handler before metadata recording. -/
structure SubInfo where
  baseName : String
  ext : String
  email : String
  models : List String
  wm : Bool
  consentGallery : Bool
  consentTraining : Bool
  origUrl : String
  origKey : String
  origLen : Nat
  mimetype : String
  outUrl : String
  nowIso : String
deriving DecidableEq, Repr

/-- The fixed-shape Originals page payload of src/api/process.js lines
208-221: every property written unconditionally, shapes assumed from the
`MAP.ORIG` table, no schema consulted. -/
def buildOrigPropsProc (i : SubInfo) : List (String × PropValue) :=
  [("Name", PropValue.title i.baseName),
   ("Email", PropValue.emailVal (if i.email = "" then none else some i.email)),
   ("URL", PropValue.urlVal i.origUrl),
   ("S3Key", PropValue.richText i.origKey),
   ("SizeBytes", PropValue.numberVal (Int.ofNat i.origLen)),
   ("MimeType", PropValue.richText i.mimetype),
   ("CreatedAt", PropValue.dateVal i.nowIso),
   ("RetentionDays", PropValue.numberVal 30),
   ("OriginalFile", PropValue.files (i.baseName ++ i.ext) i.origUrl)]

/-- The fixed-shape Submissions page payload of src/api/process.js lines
236-248: again unconditional, with the relation added only when the
Originals page was created. -/
def buildSubPropsProc (i : SubInfo) (originalPageId : Option String) :
    List (String × PropValue) :=
  [("Name", PropValue.title i.baseName),
   ("Email", PropValue.emailVal (if i.email = "" then none else some i.email)),
   ("Models", PropValue.multiSelect i.models),
   ("Status", PropValue.select "Done"),
   ("OutputURL", PropValue.urlVal i.outUrl),
   ("OriginalURL", PropValue.urlVal i.origUrl),
   ("ConsentGallery", PropValue.checkbox i.consentGallery),
   ("ConsentTraining", PropValue.checkbox i.consentTraining),
   ("CreatedAt", PropValue.dateVal i.nowIso),
   ("CompletedAt", PropValue.dateVal i.nowIso)]
  ++ (match originalPageId with
      | some opid => [("Original", PropValue.relation [opid])]
      | none => [])

/-- The property-name-to-type map `getDbPropsMeta` returns in
src/unnamed/part_001 lines 104-114 (`none` models its `null` on a failed
retrieve). -/
abbrev SchemaMeta := List (String × String)

/-- `meta?.[name]` on the possibly-null map. -/
def metaLookup (meta : Option SchemaMeta) (name : String) : Option String :=
  match meta with
  | none => none
  | some m => (m.find? (fun p => p.1 = name)).map (fun p => p.2)

/-- One guard chunk of the adaptive payload: the first kind in `ks`
matching the property's live type contributes its value (the JS
`if (meta[name] === k1) ... else if (meta[name] === k2) ...` chain). -/
def kindCases (meta : Option SchemaMeta) (name : String) :
    List (String × PropValue) → List (String × PropValue)
  | [] => []
  | (k, v) :: rest =>
    if metaLookup meta name = some k then [(name, v)] else kindCases meta name rest

/-- The schema-adaptive Submissions payload of src/unnamed/part_001 lines
522-573: each property is written only when the live schema declares it,
with the shape chosen by its declared type. -/
def buildSubPropsAdaptive (meta : Option SchemaMeta) (i : SubInfo) :
    List (String × PropValue) :=
  kindCases meta "Name" [("title", PropValue.title i.baseName)]
  ++ kindCases meta "user_email"
      [("email", PropValue.emailVal (if i.email = "" then none else some i.email))]
  ++ kindCases meta "models" [("multi_select", PropValue.multiSelect i.models)]
  ++ kindCases meta "status"
      [("select", PropValue.select "Done"), ("status", PropValue.statusVal "Done")]
  ++ kindCases meta "watermark" [("checkbox", PropValue.checkbox i.wm)]
  ++ kindCases meta "original_links" [("url", PropValue.urlVal i.origUrl)]
  ++ kindCases meta "original_files"
      [("files", PropValue.files (i.baseName ++ i.ext) i.origUrl)]
  ++ kindCases meta "output_links" [("url", PropValue.urlVal i.outUrl)]
  ++ kindCases meta "consent_gallery" [("checkbox", PropValue.checkbox i.consentGallery)]
  ++ kindCases meta "consent_training" [("checkbox", PropValue.checkbox i.consentTraining)]
  ++ kindCases meta "created_at"
      [("date", PropValue.dateVal i.nowIso), ("rich_text", PropValue.richText i.nowIso)]
  ++ kindCases meta "completed_at"
      [("date", PropValue.dateVal i.nowIso), ("checkbox", PropValue.checkbox true),
       ("rich_text", PropValue.richText i.nowIso)]
  ++ kindCases meta "notes" [("rich_text", PropValue.richText "Processed via API v1")]

/-! ## The handler as a call-trace transformer (src/api/process.js
lines 136-288).  External outcomes (form parse, file read, S3 puts,
Notion operations) are oracle inputs; the handler's outputs are the list
of external write/read calls it attempts and the HTTP response. -/

/-- One call to an external service. -/
inductive Call where
  | s3Put (key contentType : String)
  | retrieveDb (dbId : String)
  | updateDb (dbId : String) (u : UpdateCall)
  | createPage (dbId : String) (props : List (String × PropValue))
  | updatePage (pageId : String) (props : List (String × PropValue))
deriving DecidableEq, Repr

/-- A JavaScript error as the catch blocks see it: `err.message` and
`err.name`. -/
structure JsErr where
  message : String
  errName : String
deriving DecidableEq, Repr

/-- A scalar JSON value (the leaves of the response bodies). -/
inductive JLeaf where
  | str (s : String)
  | num (n : Nat)
  | bool (b : Bool)
deriving DecidableEq, Repr

/-- A JSON value one level deep: a scalar or a flat object of scalars
(the deepest nesting any response body of the handler uses). -/
inductive JsonVal where
  | str (s : String)
  | num (n : Nat)
  | bool (b : Bool)
  | obj (fields : List (String × JLeaf))
deriving DecidableEq, Repr

/-- An HTTP response: status code plus JSON object body. -/
structure Response where
  status : Nat
  body : List (String × JsonVal)
deriving DecidableEq, Repr

/-- `s.toLowerCase()` (ASCII, which is all the categorizer compares). -/
def lowerStr (s : String) : String := ⟨s.data.map Char.toLower⟩

/-- Whether `needle` is a prefix of `hay` (character lists). -/
def prefixAt : List Char → List Char → Bool
  | [], _ => true
  | _ :: _, [] => false
  | c :: cs, d :: ds => c = d && prefixAt cs ds

/-- Whether `needle` occurs contiguously in `hay` (character lists). -/
def infixAt (needle : List Char) : List Char → Bool
  | [] => needle.isEmpty
  | d :: rest => prefixAt needle (d :: rest) || infixAt needle rest

/-- JavaScript `hay.includes(needle)`. -/
def jsIncludes (hay needle : String) : Bool := infixAt needle.data hay.data

/-- JavaScript `a || b` on strings (empty string is falsy). -/
def jsOrStr (a b : String) : String := if a = "" then b else a

/-- The catch block of src/api/process.js lines 277-287: error
categorization by message substring, most specific first. -/
def categorize (maxFileMb : Nat) (e : JsErr) : Response :=
  if jsIncludes (lowerStr e.message) "max file size" then
    ⟨413, [("error", JsonVal.str "file too large"), ("limit_mb", JsonVal.num maxFileMb)]⟩
  else if jsIncludes (lowerStr e.message) "accessdenied" ||
      jsIncludes (lowerStr e.message) "signature" ||
      jsIncludes (lowerStr e.message) "invalidaccesskeyid" then
    ⟨403, [("error", JsonVal.str "s3 access denied (check IAM keys/policy/bucket region)")]⟩
  else if jsIncludes (lowerStr e.message) "unsupported" ||
      jsIncludes (lowerStr e.message) "input buffer" then
    ⟨415, [("error", JsonVal.str "unsupported image format")]⟩
  else
    ⟨500, [("error", JsonVal.str "process failed"), ("code", JsonVal.str e.errName)]⟩

/-- Modelled from the spec: the multipart decoder (formidable) is an
external collaborator, explicitly out of scope of the core; the spec
fixes only the interface the core relies on — `parseForm`, configured
with `maxFileSize = MAX_FILE_MB * 1024 * 1024`, rejects an oversized
payload during parsing, before any persistence step, with a size-limit
error that the handler's categorizer recognizes as a capacity error. -/
def parseFormModel (payloadBytes maxFileMb : Nat) : Except JsErr Unit :=
  if maxFileMb * 1024 * 1024 < payloadBytes then
    Except.error ⟨"max file size exceeded", "Error"⟩
  else Except.ok ()

/-- The file formidable delivered: `f.originalFilename` and `f.mimetype`
are nullable strings. -/
structure FileInfo where
  originalFilename : Option String
  mimetype : Option String
deriving DecidableEq, Repr

/-- The string fields the handler reads from the parsed form. -/
structure Fields where
  email : FormVal
  consent_gallery : FormVal
  consent_training : FormVal
  wm : FormVal
  filename : FormVal
deriving DecidableEq, Repr

/-- `path.extname` (POSIX): the extension of the basename, empty for a
leading-dot-only name. -/
def extname (s : String) : String :=
  let b := (s.data.reverse.takeWhile (fun c => c ≠ '/')).reverse
  match b.reverse.findIdx? (fun c => c = '.') with
  | none => ""
  | some k => if k + 1 = b.length then "" else ⟨(b.reverse.take (k + 1)).reverse⟩

/-- `MAP.STATUS_OPTIONS` from src/api/process.js line 53. -/
def STATUS_OPTIONS : List String := ["Done", "Error"]

/-- The oracle environment of one request: configuration, parsed form
content, and the outcome of every external operation the handler may
attempt. -/
structure Env where
  bucket : String
  maxFileMb : Nat
  cdnBase : String
  normalizeNFKD : String → String
  parseRes : Except JsErr Unit
  fields : Fields
  file : Option FileInfo
  modelsParsed : List String
  folder : String
  nowIso : String
  ts1 : Nat
  randBytes1 : List Nat
  ts2 : Nat
  randBytes2 : List Nat
  readRes : Except JsErr Nat
  s3OrigRes : Except JsErr Unit
  encodeRes : Except JsErr Nat
  s3OutRes : Except JsErr Unit
  notionOn : Bool
  origDb : String
  subDb : String
  origCreateRes : Except JsErr String
  statusRetrieveRes : Except JsErr Schema
  statusUpdateRes : Except JsErr Unit
  modelsRetrieveRes : Except JsErr Schema
  modelsUpdateRes : Except JsErr Unit
  subCreateRes : Except JsErr String
  relUpdateRes : Except JsErr Unit

/-- `sanitizeBase(strField(fields.filename) || f.originalFilename)`:
the argument sanitizeBase receives (a string or null). -/
def nameArgOf (fields : Fields) (f : FileInfo) : FormVal :=
  if strField fields.filename = "" then
    (match f.originalFilename with
     | some s => FormVal.str s
     | none => FormVal.missing)
  else FormVal.str (strField fields.filename)

/-- The sanitized base name the handler computes (line 168). -/
def baseNameOf (env : Env) (f : FileInfo) : String :=
  sanitizeBase env.normalizeNFKD (nameArgOf env.fields f)

/-- The extension the handler computes (line 169):
`(path.extname(filename || originalFilename || '') || '').slice(0,10).toLowerCase() || '.bin'`. -/
def extOf (fields : Fields) (f : FileInfo) : String :=
  jsOrStr
    (lowerStr (sliceTo 10 (extname
      (jsOrStr (strField fields.filename)
        (match f.originalFilename with | some s => s | none => "")))))
    ".bin"

/-- The original-upload key (line 171). -/
def origKeyOf (env : Env) (f : FileInfo) : String :=
  mkKey "originals" env.folder env.ts1 (hexOfBytes env.randBytes1)
    (baseNameOf env f) (extOf env.fields f)

/-- The derived-upload key (line 193). -/
def outKeyOf (env : Env) (f : FileInfo) : String :=
  mkKey "submissions" env.folder env.ts2 (hexOfBytes env.randBytes2)
    (baseNameOf env f) "_out.jpg"

/-- The per-submission data assembled by the handler before the Notion
blocks. -/
def subInfoOf (env : Env) (f : FileInfo) (origLen : Nat) : SubInfo :=
  { baseName := baseNameOf env f
    ext := extOf env.fields f
    email := strField env.fields.email
    models := env.modelsParsed
    wm := strField env.fields.wm = "1"
    consentGallery := strField env.fields.consent_gallery = "1"
    consentTraining := strField env.fields.consent_training = "1"
    origUrl := env.cdnBase ++ "/" ++ origKeyOf env f
    origKey := origKeyOf env f
    origLen := origLen
    mimetype := (f.mimetype.getD "")
    outUrl := env.cdnBase ++ "/" ++ outKeyOf env f
    nowIso := env.nowIso }

/-- The calls `ensureSelectOptions` makes (src/api/process.js lines
116-133): nothing when guarded out; otherwise one database retrieve,
then — if options are missing — one database update; a thrown retrieve
or update error is propagated to the surrounding try. -/
def ensureCalls (dbId : String) (retrieveRes : Except JsErr Schema)
    (updateRes : Except JsErr Unit) (propName : String) (names : List String)
    (typeTag : String) : List Call × Except JsErr Unit :=
  if dbId = "" ∨ propName = "" ∨ names.isEmpty then ([], Except.ok ())
  else
    match retrieveRes with
    | .error e => ([Call.retrieveDb dbId], .error e)
    | .ok db =>
      match ensureSelectOptions db propName names typeTag with
      | none => ([Call.retrieveDb dbId], .ok ())
      | some u =>
        match updateRes with
        | .error e => ([Call.retrieveDb dbId, Call.updateDb dbId u], .error e)
        | .ok _ => ([Call.retrieveDb dbId, Call.updateDb dbId u], .ok ())

/-- The Originals block of src/api/process.js lines 205-227: one
fixed-shape page create inside its own try/catch; failure yields no
page id and is only logged. -/
def origBlockProc (notionOn : Bool) (origDb : String) (createRes : Except JsErr String)
    (i : SubInfo) : List Call × Option String :=
  if ¬notionOn ∨ origDb = "" then ([], none)
  else
    match createRes with
    | .error _ => ([Call.createPage origDb (buildOrigPropsProc i)], none)
    | .ok pid => ([Call.createPage origDb (buildOrigPropsProc i)], some pid)

/-- The Submissions block of src/api/process.js lines 229-266: two
option-ensuring passes (Status with the seeded `STATUS_OPTIONS`, Models
with the requested model list), the page create, and — when an Originals
page exists — the back-relation update, all inside try/catch that stops
at the first thrown step and never escapes. -/
def subBlockProc (notionOn : Bool) (subDb : String)
    (statusRetrieve : Except JsErr Schema) (statusUpdate : Except JsErr Unit)
    (modelsRetrieve : Except JsErr Schema) (modelsUpdate : Except JsErr Unit)
    (subCreate : Except JsErr String) (_relUpdate : Except JsErr Unit)
    (i : SubInfo) (originalPageId : Option String) : List Call :=
  if ¬notionOn ∨ subDb = "" then []
  else
    match ensureCalls subDb statusRetrieve statusUpdate "Status" STATUS_OPTIONS "select" with
    | (c1, .error _) => c1
    | (c1, .ok _) =>
      match ensureCalls subDb modelsRetrieve modelsUpdate "Models" i.models "multi_select" with
      | (c2, .error _) => c1 ++ c2
      | (c2, .ok _) =>
        match subCreate with
        | .error _ =>
          c1 ++ c2 ++ [Call.createPage subDb (buildSubPropsProc i originalPageId)]
        | .ok subPageId =>
          match originalPageId with
          | none => c1 ++ c2 ++ [Call.createPage subDb (buildSubPropsProc i originalPageId)]
          | some opid =>
            c1 ++ c2 ++ [Call.createPage subDb (buildSubPropsProc i originalPageId),
              Call.updatePage opid [("Submission", PropValue.relation [subPageId])]]

/-- The 200 success payload of src/api/process.js lines 270-276. -/
def successResponse (i : SubInfo) (outKey outUrl : String) (outLen : Nat) : Response :=
  ⟨200, [("url", JsonVal.str outUrl), ("key", JsonVal.str outKey),
    ("bytes", JsonVal.num outLen), ("wm", JsonVal.bool i.wm),
    ("original", JsonVal.obj [("url", JLeaf.str i.origUrl), ("key", JLeaf.str i.origKey),
      ("bytes", JLeaf.num i.origLen), ("mimetype", JLeaf.str i.mimetype)])]⟩

/-- The handler of src/api/process.js lines 136-288 (the POST path): on
any failure up to the derived upload the response is the categorized
error and later calls are not attempted; after both uploads succeed the
two Notion blocks run with every failure absorbed, and the response is
always the 200 success payload. -/
def handler (env : Env) : List Call × Response :=
  if env.bucket = "" then
    ([], ⟨500, [("error", JsonVal.str "missing env: AWS_BUCKET")]⟩)
  else
    match env.parseRes with
    | .error e => ([], categorize env.maxFileMb e)
    | .ok _ =>
      match env.file with
      | none => ([], ⟨400, [("error", JsonVal.str "no file received")]⟩)
      | some f =>
        match env.readRes with
        | .error e => ([], categorize env.maxFileMb e)
        | .ok origLen =>
          match env.s3OrigRes with
          | .error e =>
            ([Call.s3Put (origKeyOf env f)
                (jsOrStr ((f.mimetype.getD "")) "application/octet-stream")],
             categorize env.maxFileMb e)
          | .ok _ =>
            match env.encodeRes with
            | .error e =>
              ([Call.s3Put (origKeyOf env f)
                  (jsOrStr ((f.mimetype.getD "")) "application/octet-stream")],
               categorize env.maxFileMb e)
            | .ok outLen =>
              match env.s3OutRes with
              | .error e =>
                ([Call.s3Put (origKeyOf env f)
                    (jsOrStr ((f.mimetype.getD "")) "application/octet-stream"),
                  Call.s3Put (outKeyOf env f) "image/jpeg"],
                 categorize env.maxFileMb e)
              | .ok _ =>
                ([Call.s3Put (origKeyOf env f)
                    (jsOrStr ((f.mimetype.getD "")) "application/octet-stream"),
                  Call.s3Put (outKeyOf env f) "image/jpeg"]
                  ++ (origBlockProc env.notionOn env.origDb env.origCreateRes
                        (subInfoOf env f origLen)).1
                  ++ subBlockProc env.notionOn env.subDb env.statusRetrieveRes
                      env.statusUpdateRes env.modelsRetrieveRes env.modelsUpdateRes
                      env.subCreateRes env.relUpdateRes (subInfoOf env f origLen)
                      (origBlockProc env.notionOn env.origDb env.origCreateRes
                        (subInfoOf env f origLen)).2,
                 successResponse (subInfoOf env f origLen) (outKeyOf env f)
                   ((subInfoOf env f origLen).outUrl) outLen)

/-- A sample submission whose parsed model list is empty, used by the
concrete scenarios below. -/
def sampleInfo : SubInfo :=
  { baseName := "image", ext := ".jpg", email := "", models := [], wm := false,
    consentGallery := false, consentTraining := false,
    origUrl := "https://cdn/orig.jpg", origKey := "ok", origLen := 1000,
    mimetype := "image/jpeg", outUrl := "https://cdn/out.jpg",
    nowIso := "2026-10-11T00:00:00.000Z" }

/-- A fully successful environment whose every Notion operation fails. -/
def envAllNotionFail : Env :=
  { bucket := "bkt", maxFileMb := 60, cdnBase := "https://cdn", normalizeNFKD := id,
    parseRes := .ok (),
    fields := ⟨FormVal.missing, FormVal.missing, FormVal.missing, FormVal.missing,
      FormVal.str "photo.jpg"⟩,
    file := some ⟨some "photo.jpg", some "image/jpeg"⟩, modelsParsed := [],
    folder := "2026/10/11", nowIso := "2026-10-11T00:00:00.000Z",
    ts1 := 1760000000000, randBytes1 := [1, 2, 3],
    ts2 := 1760000000001, randBytes2 := [4, 5, 6],
    readRes := .ok 1000, s3OrigRes := .ok (), encodeRes := .ok 900, s3OutRes := .ok (),
    notionOn := true, origDb := "odb", subDb := "sdb",
    origCreateRes := .error ⟨"notion down", "APIResponseError"⟩,
    statusRetrieveRes := .error ⟨"notion down", "APIResponseError"⟩,
    statusUpdateRes := .error ⟨"notion down", "APIResponseError"⟩,
    modelsRetrieveRes := .error ⟨"notion down", "APIResponseError"⟩,
    modelsUpdateRes := .error ⟨"notion down", "APIResponseError"⟩,
    subCreateRes := .error ⟨"notion down", "APIResponseError"⟩,
    relUpdateRes := .error ⟨"notion down", "APIResponseError"⟩ }

/-- An environment whose upload exceeds the configured size ceiling. -/
def envOversize : Env :=
  { envAllNotionFail with
    parseRes := parseFormModel (70 * 1024 * 1024) 60 }

/-! ## Theorems and witnesses -/

theorem mem_collapseAux {c : Char} : ∀ (b : Bool) (l : List Char),
    c ∈ collapseAux b l → isWordDash c
  | _, [], h => by cases h
  | b, d :: rest, h => by
    unfold collapseAux at h
    by_cases hw : isWordDash d
    · simp only [hw, if_pos] at h
      rcases List.mem_cons.mp h with rfl | h'
      · exact hw
      · exact mem_collapseAux false rest h'
    · simp only [hw, if_neg, Bool.false_eq_true, if_false] at h
      by_cases hb : b
      · subst hb
        simp only [if_pos] at h
        exact mem_collapseAux true rest h
      · simp only [hb] at h
        rcases List.mem_cons.mp h with rfl | h'
        · decide
        · exact mem_collapseAux true rest h'

theorem collapseAux_of_all (b : Bool) (l : List Char)
    (h : ∀ c ∈ l, isWordDash c) : collapseAux b l = l := by
  induction l generalizing b with
  | nil => rfl
  | cons c rest ih =>
    have hc : isWordDash c := h c (List.mem_cons_self ..)
    unfold collapseAux
    simp only [hc, if_pos]
    exact congrArg (c :: ·) (ih false (fun d hd => h d (List.mem_cons_of_mem _ hd)))

theorem lastSegment_of_all (s : String) (h : ∀ c ∈ s.data, isWordDash c) :
    lastSegment s = s := by
  unfold lastSegment
  have hsep : ∀ c ∈ s.data.reverse, (fun c => !isSepChar c) c = true := by
    intro c hc
    have hw := h c (List.mem_reverse.mp hc)
    revert hw
    unfold isWordDash isSepChar
    rcases Classical.em (c = '/') with rfl | h1
    · decide
    rcases Classical.em (c = '\\') with rfl | h2
    · decide
    intro _
    simp [h1, h2]
  rw [List.takeWhile_eq_self_iff.mpr hsep, List.reverse_reverse]

theorem findIdx?_eq_none_of_all {p : Char → Bool} (l : List Char)
    (h : ∀ c ∈ l, p c = false) : l.findIdx? p = none := by
  rw [List.findIdx?_eq_none_iff]
  intro c hc
  simpa using h c hc

theorem dropLastExt_of_all (s : String) (h : ∀ c ∈ s.data, isWordDash c) :
    dropLastExt s = s := by
  unfold dropLastExt
  have : s.data.reverse.findIdx? (fun c => c = '.') = none := by
    apply findIdx?_eq_none_of_all
    intro c hc
    have hw := h c (List.mem_reverse.mp hc)
    have : c ≠ '.' := by
      rintro rfl
      exact absurd hw (by decide)
    simp [this]
  rw [this]

theorem sanitizeBase_ok (nfkd : String → String) (x : FormVal) :
    sanitizedOk (sanitizeBase nfkd x) := by
  unfold sanitizeBase
  set cleaned := collapseNonWord (nfkd (dropLastExt (lastSegment
    (if strField x = "" then "image" else strField x)))) with hdef
  by_cases hempty : sliceTo 64 cleaned = ""
  · simp only [hempty, if_pos]
    refine ⟨by decide, by decide, by decide⟩
  · simp only [hempty, if_neg, if_false]
    refine ⟨hempty, ?_, ?_⟩
    · show ((cleaned.data.take 64)).length ≤ 64
      simp
    · intro c hc
      have hc' : c ∈ cleaned.data := List.mem_of_mem_take hc
      rw [hdef] at hc'
      exact mem_collapseAux false _ hc'

/-- C5: base-name sanitization is idempotent, and its output always is a
nonempty string of at most 64 characters drawn from `[A-Za-z0-9_-]` (with
the fixed placeholder `"image"` substituted for an empty result).  The
hypothesis `hn` is the Unicode-standard fact that NFKD normalization
fixes strings that are already ASCII of that class. -/
theorem sanitizeBase_idem_and_ok (nfkd : String → String)
    (hn : ∀ s : String, (∀ c ∈ s.data, isWordDash c) → nfkd s = s) (x : FormVal) :
    sanitizeBase nfkd (FormVal.str (sanitizeBase nfkd x)) = sanitizeBase nfkd x ∧
      sanitizedOk (sanitizeBase nfkd x) := by
  refine ⟨?_, sanitizeBase_ok nfkd x⟩
  obtain ⟨hne, hlen, hclass⟩ := sanitizeBase_ok nfkd x
  set r := sanitizeBase nfkd x with hr
  show sanitizeBase nfkd (FormVal.str r) = r
  unfold sanitizeBase
  simp only [strField, hne, if_neg, if_false]
  rw [lastSegment_of_all r hclass, dropLastExt_of_all r hclass, hn r hclass]
  have hcoll : collapseNonWord r = r := by
    unfold collapseNonWord
    rw [collapseAux_of_all false r.data hclass]
  rw [hcoll]
  have hslice : sliceTo 64 r = r := by
    unfold sliceTo
    rw [List.take_of_length_le hlen]
  rw [hslice]
  simp [hne]

/-- Witness for C5 at a concrete input: sanitizing
`"héllo wörld/phöto.png"` (with NFKD taken as the identity, which
satisfies the hypothesis) is idempotent and well-formed. -/
theorem sanitizeBase_idem_and_ok_witness :
    sanitizeBase id (FormVal.str (sanitizeBase id (FormVal.str "My Photo (1)/summer trip.png")))
        = sanitizeBase id (FormVal.str "My Photo (1)/summer trip.png") ∧
      sanitizedOk (sanitizeBase id (FormVal.str "My Photo (1)/summer trip.png")) :=
  sanitizeBase_idem_and_ok id (fun _ _ => rfl) (FormVal.str "My Photo (1)/summer trip.png")

theorem string_data_append (s t : String) : (s ++ t).data = s.data ++ t.data := rfl

theorem hexDigitChar_inj_lt : ∀ a b : Fin 16,
    hexDigitChar a.val = hexDigitChar b.val → a = b := by decide

theorem byteHex_inj {a b : Nat} (ha : a < 256) (hb : b < 256)
    (h : byteHex a = byteHex b) : a = b := by
  unfold byteHex at h
  have h1 : hexDigitChar (a / 16) = hexDigitChar (b / 16) := by
    simpa using congrArg (fun l => l.headI) h
  have h2 : hexDigitChar (a % 16) = hexDigitChar (b % 16) := by
    simpa using congrArg (fun l => l.getLastI) h
  have hd1 : a / 16 < 16 := Nat.div_lt_of_lt_mul ha
  have hd2 : b / 16 < 16 := Nat.div_lt_of_lt_mul hb
  have hm1 : a % 16 < 16 := Nat.mod_lt _ (by omega)
  have hm2 : b % 16 < 16 := Nat.mod_lt _ (by omega)
  have e1 : a / 16 = b / 16 := by
    have := hexDigitChar_inj_lt ⟨a / 16, hd1⟩ ⟨b / 16, hd2⟩ h1
    exact congrArg Fin.val this
  have e2 : a % 16 = b % 16 := by
    have := hexDigitChar_inj_lt ⟨a % 16, hm1⟩ ⟨b % 16, hm2⟩ h2
    exact congrArg Fin.val this
  omega

theorem hexOfBytes_length (bs : List Nat) : (hexOfBytes bs).data.length = 2 * bs.length := by
  induction bs with
  | nil => rfl
  | cons b rest ih =>
    have hstep : (hexOfBytes (b :: rest)).data = byteHex b ++ (hexOfBytes rest).data := rfl
    rw [hstep, List.length_append, ih]
    simp only [byteHex, List.length_cons, List.length_nil]
    omega

theorem hexOfBytes_inj : ∀ (b1 b2 : List Nat), b1.length = b2.length →
    (∀ x ∈ b1, x < 256) → (∀ x ∈ b2, x < 256) →
    hexOfBytes b1 = hexOfBytes b2 → b1 = b2
  | [], [], _, _, _, _ => rfl
  | [], _ :: _, hlen, _, _, _ => by simp at hlen
  | _ :: _, [], hlen, _, _, _ => by simp at hlen
  | x :: r1, y :: r2, hlen, hb1, hb2, h => by
    have hx := hb1 x (List.mem_cons_self ..)
    have hy := hb2 y (List.mem_cons_self ..)
    have hdata : byteHex x ++ (r1.map byteHex).flatten = byteHex y ++ (r2.map byteHex).flatten := by
      have := congrArg String.data h
      simpa [hexOfBytes] using this
    have hlen2 : (byteHex x).length = (byteHex y).length := by simp [byteHex]
    have hpair := List.append_inj hdata hlen2
    have hx_eq : x = y := byteHex_inj hx hy hpair.1
    have hrest : hexOfBytes r1 = hexOfBytes r2 := by
      apply congrArg String.mk
      exact hpair.2
    have := hexOfBytes_inj r1 r2 (by simpa using hlen)
      (fun z hz => hb1 z (List.mem_cons_of_mem _ hz))
      (fun z hz => hb2 z (List.mem_cons_of_mem _ hz)) hrest
    rw [hx_eq, this]

/-- C4: two storage keys built in the same process in the same
millisecond (same `role`, `folder` and `Date.now()` value) are distinct
whenever their 3-byte random suffixes differ — even with identical base
names and suffixes, because the hex-encoded random bytes occupy a
fixed-width slot of the key. -/
theorem keys_distinct_of_rand_ne (role folder : String) (ts : Nat)
    (b1 b2 : List Nat) (base1 base2 suffix1 suffix2 : String)
    (hlen1 : b1.length = 3) (hlen2 : b2.length = 3)
    (hb1 : ∀ x ∈ b1, x < 256) (hb2 : ∀ x ∈ b2, x < 256)
    (hne : b1 ≠ b2) :
    mkKey role folder ts (hexOfBytes b1) base1 suffix1 ≠
      mkKey role folder ts (hexOfBytes b2) base2 suffix2 := by
  intro heq
  apply hne
  have hdata := congrArg String.data heq
  simp only [mkKey, string_data_append, List.append_assoc] at hdata
  have hdata2 := List.append_cancel_left hdata
  have hdata3 := List.append_cancel_left hdata2
  have hdata4 := List.append_cancel_left hdata3
  have hdata5 := List.append_cancel_left hdata4
  have hdata6 := List.append_cancel_left hdata5
  rw [← List.append_assoc, ← List.append_assoc, ← List.append_assoc,
    ← List.append_assoc] at hdata6
  have hhexlen : (hexOfBytes b1).data.length = (hexOfBytes b2).data.length := by
    rw [hexOfBytes_length, hexOfBytes_length, hlen1, hlen2]
  have hpair := List.append_inj
    (by simpa [List.append_assoc] using hdata6 : (hexOfBytes b1).data ++ _ = (hexOfBytes b2).data ++ _)
    hhexlen
  exact hexOfBytes_inj b1 b2 (by rw [hlen1, hlen2]) hb1 hb2 (congrArg String.mk hpair.1)

/-- Witness for C4 at concrete inputs: same millisecond, same base name,
random bytes `[0,0,0]` versus `[0,0,1]` give distinct derived keys. -/
theorem keys_distinct_of_rand_ne_witness :
    mkKey "submissions" "2026/10/11" 1760000000000 (hexOfBytes [0, 0, 0]) "image" "_out.jpg" ≠
      mkKey "submissions" "2026/10/11" 1760000000000 (hexOfBytes [0, 0, 1]) "image" "_out.jpg" :=
  keys_distinct_of_rand_ne "submissions" "2026/10/11" 1760000000000 [0, 0, 0] [0, 0, 1]
    "image" "image" "_out.jpg" "_out.jpg" rfl rfl (by decide) (by decide) (by decide)

/-- C7: the transform chains of both handlers depend on the requested
model list only through membership, so any two requests listing the same
models in different orders produce the identical operation chain, hence
identical output bytes. -/
theorem chain_order_independent (ms1 ms2 : List String) (hperm : ms1.Perm ms2)
    (metaW metaH : Option Nat) (wm : Bool) (maxWidth : Nat) :
    applyChain ms1 metaW metaH wm = applyChain ms2 metaW metaH wm ∧
      previewChain ms1 metaW maxWidth = previewChain ms2 metaW maxWidth := by
  have hmem : ∀ a : String, a ∈ ms1 ↔ a ∈ ms2 := fun a => hperm.mem_iff
  constructor
  · unfold applyChain
    simp only [hmem]
  · unfold previewChain
    simp only [hmem]

/-- Witness for C7: the two orderings from the spec example give the
same chain. -/
theorem chain_order_independent_witness :
    applyChain ["stabilize", "color_restore"] (some 2000) (some 1000) false =
        applyChain ["color_restore", "stabilize"] (some 2000) (some 1000) false ∧
      previewChain ["stabilize", "color_restore"] (some 2000) 1280 =
        previewChain ["color_restore", "stabilize"] (some 2000) 1280 :=
  chain_order_independent ["stabilize", "color_restore"] ["color_restore", "stabilize"]
    (List.Perm.swap _ _ _) (some 2000) (some 1000) false 1280

/-- C8: a model list containing no known identifier produces exactly the
chain of the empty list — rotation/metadata normalization plus the final
encode (and the watermark when separately enabled); unknown identifiers
trigger no transform step. -/
theorem chain_unknown_models_noop (ms : List String)
    (h : ∀ s ∈ ms, s ∉ knownModels) (metaW metaH : Option Nat) (wm : Bool) :
    applyChain ms metaW metaH wm = applyChain [] metaW metaH wm ∧
      applyChain [] metaW metaH false = [ImgOp.rotate, ImgOp.withMeta, ImgOp.jpegEncode 92] := by
  have hc : "color_restore" ∉ ms := fun hm => h _ hm (by decide)
  have hd : "dehaze" ∉ ms := fun hm => h _ hm (by decide)
  have hs : "stabilize" ∉ ms := fun hm => h _ hm (by decide)
  have hr : "superres" ∉ ms := fun hm => h _ hm (by decide)
  constructor
  · unfold applyChain
    simp [hc, hd, hs, hr]
  · rfl

/-- Witness for C8 at the spec's example input `["not_a_real_model"]`. -/
theorem chain_unknown_models_noop_witness :
    applyChain ["not_a_real_model"] (some 2000) (some 1000) false =
        applyChain [] (some 2000) (some 1000) false ∧
      applyChain [] (some 2000) (some 1000) false =
        [ImgOp.rotate, ImgOp.withMeta, ImgOp.jpegEncode 92] :=
  chain_unknown_models_noop ["not_a_real_model"] (by decide) (some 2000) (some 1000) false

theorem chainWidth_append (w0 : Nat) (l1 l2 : List ImgOp) :
    chainWidth w0 (l1 ++ l2) = chainWidth (chainWidth w0 l1) l2 := by
  unfold chainWidth
  rw [List.foldl_append]

theorem chainWidth_of_no_resize (w0 : Nat) (ops : List ImgOp)
    (h : ∀ op ∈ ops, opSetsWidth op = none) : chainWidth w0 ops = w0 := by
  induction ops generalizing w0 with
  | nil => rfl
  | cons op rest ih =>
    unfold chainWidth at *
    simp only [List.foldl_cons]
    rw [h op (List.mem_cons_self ..)]
    exact ih w0 (fun o ho => h o (List.mem_cons_of_mem _ ho))

/-- C9: when `superres` is requested and the intrinsic width `w` is
known (and nonzero), the chain contains the upscale
`resize (Math.round(w * 1.5))`, every operation after it preserves width
— so the final output width is `(3 * w + 1) / 2 = round(w * 1.5)`
regardless of the width the earlier steps produced — and no effect
transform occurs after the upscale. -/
theorem chain_superres_width (ms : List String) (w : Nat) (metaH : Option Nat) (wm : Bool)
    (hs : "superres" ∈ ms) (hw : w ≠ 0) :
    (∀ w0, chainWidth w0 (applyChain ms (some w) metaH wm) = (3 * w + 1) / 2) ∧
      ∃ pre post, applyChain ms (some w) metaH wm =
          pre ++ ImgOp.resize ((3 * w + 1) / 2) :: post ∧
        (∀ op ∈ post, isEffectOp op = false) ∧ (∀ op ∈ post, opSetsWidth op = none) := by
  have hpost : ∀ op ∈ (if wm then [watermarkBar (some w) metaH] else [])
      ++ [ImgOp.jpegEncode 92],
      isEffectOp op = false ∧ opSetsWidth op = none := by
    intro op hop
    rcases List.mem_append.mp hop with h1 | h1
    · rcases wm with _ | _
      · simp at h1
      · simp only [if_pos] at h1
        rcases List.mem_singleton.mp h1 with rfl
        exact ⟨rfl, rfl⟩
    · rcases List.mem_singleton.mp h1 with rfl
      exact ⟨rfl, rfl⟩
  have hchain : applyChain ms (some w) metaH wm =
      ([ImgOp.rotate, ImgOp.withMeta]
        ++ (if "color_restore" ∈ ms then
              [ImgOp.modulate (112 / 100), ImgOp.linear (106 / 100) (-4)] else [])
        ++ (if "dehaze" ∈ ms then [ImgOp.sharpen (3 / 2)] else [])
        ++ (if "stabilize" ∈ ms then [ImgOp.sharpen (3 / 5)] else []))
      ++ ImgOp.resize ((3 * w + 1) / 2) ::
        ((if wm then [watermarkBar (some w) metaH] else []) ++ [ImgOp.jpegEncode 92]) := by
    unfold applyChain
    simp only [hs, if_pos, hw, if_neg, if_false]
    simp [List.append_assoc]
  refine ⟨?_, ?_⟩
  · intro w0
    rw [hchain, chainWidth_append]
    show chainWidth _ (ImgOp.resize ((3 * w + 1) / 2) :: _) = _
    unfold chainWidth
    simp only [List.foldl_cons]
    exact chainWidth_of_no_resize _ _ (fun op hop => (hpost op hop).2)
  · exact ⟨_, _, hchain, fun op hop => (hpost op hop).1, fun op hop => (hpost op hop).2⟩

/-- Witness for C9 at the spec's end-to-end example: a 2000px-wide input
with `models = ["superres"]` yields output width 3000. -/
theorem chain_superres_width_witness :
    chainWidth 2000 (applyChain ["superres"] (some 2000) (some 1000) false) = 3000 := by
  have h := chain_superres_width ["superres"] 2000 (some 1000) false
    (by decide) (by decide)
  have h2 := h.1 2000
  rw [h2]

/-- C10: the option-ensuring helper issues no schema update when the
named property is absent from the live schema or has a type other than
the expected one; and any update it does issue implies the property
exists with the expected type and some requested, nonempty option name
is missing from its existing option set. -/
theorem ensureSelectOptions_frame (db : Schema) (propName typeTag : String)
    (names : List String) :
    ((findProp db propName = none ∨
        ∃ p, findProp db propName = some p ∧ p.type ≠ typeTag) →
      ensureSelectOptions db propName names typeTag = none) ∧
    (∀ u, ensureSelectOptions db propName names typeTag = some u →
      ∃ p, findProp db propName = some p ∧ p.type = typeTag ∧
        ∃ n ∈ names, n ≠ "" ∧ n ∉ p.options.map SelectOption.name) := by
  constructor
  · intro habs
    unfold ensureSelectOptions
    by_cases hguard : propName = "" ∨ names.isEmpty
    · rw [if_pos hguard]
    · rw [if_neg hguard]
      rcases habs with hnone | ⟨p, hp, hty⟩
      · rw [hnone]
      · simp only [hp]
        rw [if_pos hty]
  · intro u hu
    unfold ensureSelectOptions at hu
    by_cases hguard : propName = "" ∨ names.isEmpty
    · rw [if_pos hguard] at hu; cases hu
    · rw [if_neg hguard] at hu
      cases hfind : findProp db propName with
      | none => rw [hfind] at hu; cases hu
      | some p =>
        simp only [hfind] at hu
        by_cases hty : p.type ≠ typeTag
        · rw [if_pos hty] at hu; cases hu
        · push_neg at hty
          rw [if_neg (by simp [hty])] at hu
          by_cases hempty : (names.filter
              (fun n => decide (n ≠ "" ∧ n ∉ p.options.map SelectOption.name))).isEmpty
          · rw [if_pos hempty] at hu; cases hu
          · refine ⟨p, rfl, hty, ?_⟩
            have hne : names.filter
                (fun n => decide (n ≠ "" ∧ n ∉ p.options.map SelectOption.name)) ≠ [] := by
              intro h
              rw [h] at hempty
              exact hempty rfl
            obtain ⟨n, hn⟩ := List.exists_mem_of_ne_nil _ hne
            have hmem := List.mem_filter.mp hn
            have hprop := of_decide_eq_true hmem.2
            exact ⟨n, hmem.1, hprop.1, hprop.2⟩

/-- Witness for C10: a schema whose `Status` property is `rich_text`
yields no update; a schema with an empty-option `select` yields one whose
missing name is witnessed. -/
theorem ensureSelectOptions_frame_witness :
    ensureSelectOptions [("Status", ⟨"rich_text", []⟩)] "Status" ["Done"] "select" = none ∧
      ∃ p, findProp [("Status", NotionProp.mk "select" [])] "Status" = some p ∧
        p.type = "select" ∧ ∃ n ∈ ["Done"], n ≠ "" ∧ n ∉ p.options.map SelectOption.name := by
  constructor
  · exact (ensureSelectOptions_frame [("Status", ⟨"rich_text", []⟩)] "Status" "select"
      ["Done"]).1 (Or.inr ⟨⟨"rich_text", []⟩, rfl, by decide⟩)
  · exact (ensureSelectOptions_frame [("Status", ⟨"select", []⟩)] "Status" "select"
      ["Done"]).2 ⟨"Status", "select", [⟨"Done"⟩]⟩ rfl

theorem kindCases_sound (meta : Option SchemaMeta) (name : String)
    (ks : List (String × PropValue)) (hks : ∀ q ∈ ks, shapeOfKind q.1 q.2 = true) :
    ∀ p ∈ kindCases meta name ks,
      ∃ t, metaLookup meta name = some t ∧ shapeOfKind t p.2 = true ∧ p.1 = name := by
  induction ks with
  | nil => intro p hp; cases hp
  | cons q rest ih =>
    intro p hp
    unfold kindCases at hp
    by_cases hc : metaLookup meta name = some q.1
    · simp only [hc, if_pos] at hp
      rcases List.mem_singleton.mp hp with rfl
      exact ⟨q.1, hc, hks q (List.mem_cons_self ..), rfl⟩
    · simp only [hc, if_neg, if_false] at hp
      exact ih (fun r hr => hks r (List.mem_cons_of_mem _ hr)) p hp

/-- C1 (amended): in the schema-adaptive metadata recorder of
src/unnamed/part_001, every property in the page-create payload names a
property present in the freshly fetched schema snapshot, and its value
is shaped according to that property's declared kind. -/
theorem adaptive_props_respect_schema (meta : Option SchemaMeta) (i : SubInfo) :
    ∀ p ∈ buildSubPropsAdaptive meta i,
      ∃ t, metaLookup meta p.1 = some t ∧ shapeOfKind t p.2 = true := by
  intro p hp
  unfold buildSubPropsAdaptive at hp
  simp only [List.append_assoc, List.mem_append] at hp
  rcases hp with h | h | h | h | h | h | h | h | h | h | h | h | h
  all_goals {
    obtain ⟨t, ht, hshape, hname⟩ := kindCases_sound _ _ _
      (by intro q hq
          rcases List.mem_cons.mp hq with rfl | hq2
          · rfl
          · first
            | (rcases List.mem_cons.mp hq2 with rfl | hq3
               · rfl
               · (first
                  | (rcases List.mem_cons.mp hq3 with rfl | hq4
                     · rfl
                     · cases hq4)
                  | cases hq3))
            | cases hq2) _ h
    rw [hname]
    exact ⟨t, ht, hshape⟩ }

/-- Witness for C1's amended theorem at a concrete snapshot and
submission. -/
theorem adaptive_props_respect_schema_witness :
    ∃ t, metaLookup (some [("Name", "title"), ("status", "status")]) "status" = some t ∧
      shapeOfKind t (PropValue.statusVal "Done") = true := by
  have h := adaptive_props_respect_schema (some [("Name", "title"), ("status", "status")])
    { baseName := "image", ext := ".jpg", email := "", models := [], wm := false,
      consentGallery := false, consentTraining := false, origUrl := "u", origKey := "k",
      origLen := 1, mimetype := "image/jpeg", outUrl := "o", nowIso := "2026-10-11" }
    ("status", PropValue.statusVal "Done") (by decide)
  exact h

/-- C1 counterexample: the handler of src/api/process.js builds its
page-create payloads with fixed shapes, without consulting any schema
snapshot.  Against a live Submissions schema containing only a `Status`
select property, the payload still carries `OutputURL` (among others),
a property name absent from the snapshot — refuting the claim that
every metadata write uses only names present in the fetched schema. -/
theorem proc_props_ignore_schema :
    ("OutputURL", PropValue.urlVal "https://cdn/out.jpg") ∈
        buildSubPropsProc
          { baseName := "image", ext := ".jpg", email := "", models := [], wm := false,
            consentGallery := false, consentTraining := false, origUrl := "https://cdn/orig.jpg",
            origKey := "k", origLen := 1, mimetype := "image/jpeg",
            outUrl := "https://cdn/out.jpg", nowIso := "2026-10-11" } none ∧
      findProp [("Status", ⟨"select", [⟨"Done"⟩, ⟨"Error"⟩]⟩)] "OutputURL" = none := by
  constructor
  · simp [buildSubPropsProc]
  · rfl

/-- C2: once artifact persistence has succeeded (form parsed, file read,
both S3 puts ok), the response is the 200 success payload with the
derived URL, key and byte size — for every possible outcome of every
metadata-recording step (schema retrieve, option extension, page create,
relation update), since those outcomes are unconstrained here.  No
metadata failure changes the status or propagates. -/
theorem metadata_errors_never_change_response (env : Env) (f : FileInfo)
    (origLen outLen : Nat)
    (hb : env.bucket ≠ "")
    (hparse : env.parseRes = .ok ())
    (hfile : env.file = some f)
    (hread : env.readRes = .ok origLen)
    (hs3o : env.s3OrigRes = .ok ())
    (henc : env.encodeRes = .ok outLen)
    (hs3out : env.s3OutRes = .ok ()) :
    (handler env).2 = successResponse (subInfoOf env f origLen) (outKeyOf env f)
      ((subInfoOf env f origLen).outUrl) outLen := by
  unfold handler
  rw [if_neg hb]
  simp only [hparse, hfile, hread, hs3o, henc, hs3out]

/-- Witness for C2: in a concrete environment where every Notion
operation fails, the handler still answers 200 with the derived
artifact data. -/
theorem metadata_errors_never_change_response_witness :
    (handler envAllNotionFail).2 =
      successResponse (subInfoOf envAllNotionFail ⟨some "photo.jpg", some "image/jpeg"⟩ 1000)
        (outKeyOf envAllNotionFail ⟨some "photo.jpg", some "image/jpeg"⟩)
        ((subInfoOf envAllNotionFail ⟨some "photo.jpg", some "image/jpeg"⟩ 1000).outUrl) 900 :=
  metadata_errors_never_change_response envAllNotionFail ⟨some "photo.jpg", some "image/jpeg"⟩
    1000 900 (by decide) rfl rfl rfl rfl rfl rfl

/-- C6: an upload whose payload exceeds `MAX_FILE_MB` megabytes fails
during form parsing; the handler answers 413 with the `error` string and
the `limit_mb` auxiliary field, and its call trace is empty — zero
writes to the object store and zero to the record store. -/
theorem oversize_rejected_no_writes (env : Env) (payloadBytes : Nat)
    (hb : env.bucket ≠ "")
    (hparse : env.parseRes = parseFormModel payloadBytes env.maxFileMb)
    (hover : env.maxFileMb * 1024 * 1024 < payloadBytes) :
    handler env = ([], ⟨413, [("error", JsonVal.str "file too large"),
      ("limit_mb", JsonVal.num env.maxFileMb)]⟩) := by
  unfold handler
  rw [if_neg hb, hparse]
  unfold parseFormModel
  rw [if_pos hover]
  show ([], categorize env.maxFileMb ⟨"max file size exceeded", "Error"⟩) = _
  unfold categorize
  rw [if_pos (by decide)]

/-- Witness for C6: a 70 MB payload against the default 60 MB ceiling. -/
theorem oversize_rejected_no_writes_witness :
    handler envOversize = ([], ⟨413, [("error", JsonVal.str "file too large"),
      ("limit_mb", JsonVal.num 60)]⟩) :=
  oversize_rejected_no_writes envOversize (70 * 1024 * 1024) (by decide) rfl (by decide)

theorem ensureSelectOptions_none_of_all (db : Schema) (propName typeTag : String)
    (names : List String) (p : NotionProp) (hfind : findProp db propName = some p)
    (hty : p.type = typeTag)
    (hall : ∀ n ∈ names, n ∈ p.options.map SelectOption.name) :
    ensureSelectOptions db propName names typeTag = none := by
  unfold ensureSelectOptions
  by_cases hguard : propName = "" ∨ names.isEmpty
  · rw [if_pos hguard]
  · rw [if_neg hguard]
    simp only [hfind]
    rw [if_neg (by simp [hty])]
    have hnil : names.filter
        (fun n => decide (n ≠ "" ∧ n ∉ p.options.map SelectOption.name)) = [] := by
      rw [List.filter_eq_nil_iff]
      intro n hn
      simp only [decide_eq_true_eq]
      exact fun h => h.2 (hall n hn)
    rw [hnil]
    rfl

/-- C3 (amended): in the src/api/process.js submissions flow with an
empty requested model list and a select-typed `Status` property:
(a) when the existing option set already contains all the seeded status
options `Done` and `Error`, no schema-mutation call is issued (trace is
retrieve then create) — containing only the value to be written, `Done`,
is not enough, see the counterexample; (b) with an empty option set,
exactly one option-extension call is issued and it precedes the
record-create call; (c) the part_001 variant matches the spec's example
as stated: with options already containing `Done` and requested value
`Done`, it issues no mutation. -/
theorem status_option_extension (opts : List SelectOption) (i : SubInfo)
    (hms : i.models = []) :
    ((∀ n ∈ STATUS_OPTIONS, n ∈ opts.map SelectOption.name) →
      subBlockProc true "sdb" (.ok [("Status", ⟨"select", opts⟩)]) (.ok ())
          (.ok [("Status", ⟨"select", opts⟩)]) (.ok ()) (.ok "pid") (.ok ()) i none =
        [Call.retrieveDb "sdb", Call.createPage "sdb" (buildSubPropsProc i none)]) ∧
    (opts = [] →
      subBlockProc true "sdb" (.ok [("Status", ⟨"select", opts⟩)]) (.ok ())
          (.ok [("Status", ⟨"select", opts⟩)]) (.ok ()) (.ok "pid") (.ok ()) i none =
        [Call.retrieveDb "sdb",
         Call.updateDb "sdb" ⟨"Status", "select", [⟨"Done"⟩, ⟨"Error"⟩]⟩,
         Call.createPage "sdb" (buildSubPropsProc i none)]) ∧
    ensureSelectOptionIfNeeded [("status", ⟨"select", [⟨"Done"⟩]⟩)] "status" "Done" = none := by
  refine ⟨?_, ?_, rfl⟩
  · intro hall
    have hnone : ensureSelectOptions [("Status", ⟨"select", opts⟩)] "Status"
        STATUS_OPTIONS "select" = none :=
      ensureSelectOptions_none_of_all _ _ _ _ ⟨"select", opts⟩ rfl rfl hall
    unfold subBlockProc
    rw [if_neg (by simp)]
    have hens : ensureCalls "sdb" (.ok [("Status", ⟨"select", opts⟩)]) (.ok ())
        "Status" STATUS_OPTIONS "select" = ([Call.retrieveDb "sdb"], .ok ()) := by
      unfold ensureCalls
      rw [if_neg (by simp [STATUS_OPTIONS])]
      simp only [hnone]
    simp only [hens]
    have hens2 : ensureCalls "sdb" (.ok [("Status", ⟨"select", opts⟩)]) (.ok ())
        "Models" i.models "multi_select" = ([], .ok ()) := by
      unfold ensureCalls
      rw [if_pos (by simp [hms])]
    simp only [hens2]
    rfl
  · intro hopts
    subst hopts
    unfold subBlockProc
    rw [if_neg (by simp)]
    have hens : ensureCalls "sdb" (.ok [("Status", ⟨"select", []⟩)]) (.ok ())
        "Status" STATUS_OPTIONS "select" =
        ([Call.retrieveDb "sdb",
          Call.updateDb "sdb" ⟨"Status", "select", [⟨"Done"⟩, ⟨"Error"⟩]⟩], .ok ()) := by
      rfl
    simp only [hens]
    have hens2 : ensureCalls "sdb" (.ok [("Status", ⟨"select", []⟩)]) (.ok ())
        "Models" i.models "multi_select" = ([], .ok ()) := by
      unfold ensureCalls
      rw [if_pos (by simp [hms])]
    simp only [hens2]
    rfl

/-- Witness for C3's amended theorem at both concrete option sets. -/
theorem status_option_extension_witness :
    (subBlockProc true "sdb" (.ok [("Status", ⟨"select", [⟨"Done"⟩, ⟨"Error"⟩]⟩)]) (.ok ())
        (.ok [("Status", ⟨"select", [⟨"Done"⟩, ⟨"Error"⟩]⟩)]) (.ok ()) (.ok "pid") (.ok ())
        sampleInfo none =
      [Call.retrieveDb "sdb", Call.createPage "sdb" (buildSubPropsProc sampleInfo none)]) ∧
    (subBlockProc true "sdb" (.ok [("Status", ⟨"select", []⟩)]) (.ok ())
        (.ok [("Status", ⟨"select", []⟩)]) (.ok ()) (.ok "pid") (.ok ())
        sampleInfo none =
      [Call.retrieveDb "sdb",
       Call.updateDb "sdb" ⟨"Status", "select", [⟨"Done"⟩, ⟨"Error"⟩]⟩,
       Call.createPage "sdb" (buildSubPropsProc sampleInfo none)]) := by
  constructor
  · exact (status_option_extension [⟨"Done"⟩, ⟨"Error"⟩] sampleInfo rfl).1 (by decide)
  · exact (status_option_extension [] sampleInfo rfl).2.1 rfl

/-- C3 counterexample: with the existing option set already containing
the value to be written (`Done`) but not the second seeded option, the
src/api/process.js flow does issue a schema-mutation call (it always
requests `MAP.STATUS_OPTIONS = [Done, Error]`), refuting the claim that
no database update occurs when the option set contains the requested
status value. -/
theorem status_option_extension_cex :
    subBlockProc true "sdb" (.ok [("Status", ⟨"select", [⟨"Done"⟩]⟩)]) (.ok ())
        (.ok [("Status", ⟨"select", [⟨"Done"⟩]⟩)]) (.ok ()) (.ok "pid") (.ok ())
        sampleInfo none =
      [Call.retrieveDb "sdb",
       Call.updateDb "sdb" ⟨"Status", "select", [⟨"Done"⟩, ⟨"Error"⟩]⟩,
       Call.createPage "sdb" (buildSubPropsProc sampleInfo none)] := by
  rfl

end AquaAI
